import Mathlib

/-!
Verification of the core of `location_of_interest_checker`
(`location_of_interest_checker/location_of_interest_checker.py`).

The tool cross-references a personal location history (timestamped
latitude/longitude samples) against a list of locations of interest
(a point plus a time window), reporting for each location of interest the
closest in-window history sample and its distance.

Shallow embedding notes:
* Timestamps (`datetime` values obtained from epoch milliseconds) are
  modelled as integers; only their ordering matters to the core.
* Latitudes, longitudes and distances are modelled as rationals.
* The geodesic distance `geopy.distance.distance(..).km` is an external
  library call, not code of this repository; it is modelled as an explicit
  function parameter `dist : Point → Point → ℚ` everywhere it is used.
  The repository code applies Python `round(_, 2)` on top of it, which is
  modelled exactly (round half to even, as Python rounds).
* Pandas dataframes of rows are modelled as lists of records; boolean-mask
  selection is `List.filter`; `np.argmin` is the index of the first
  minimum; `pandas.Series.argmin` (reached via `np.argmin` on a Series)
  skips missing values; `sort_values` sorts ascending with missing values
  placed last; missing values (`NaN` / `NaT`) are modelled as `none`.
-/

/-- A shapely `Point`: `x` is longitude, `y` is latitude. -/
structure Point where
  x : ℚ
  y : ℚ
deriving DecidableEq

/-- One row of the location history dataframe built by
`read_location_history_file`: a `time` column (from `timestampMs`) and
`lat`/`lon` columns. -/
structure PositionSample where
  time : ℤ
  lat : ℚ
  lon : ℚ
deriving DecidableEq

/-- The `geometry` column of the history dataframe: `Point(row.lon, row.lat)`. -/
def PositionSample.geometry (s : PositionSample) : Point :=
  ⟨s.lon, s.lat⟩

/-- One row of the locations-of-interest dataframe: event label, parsed
`Start`/`End` times and the point geometry (with derived `lat`/`lon`). -/
structure LocationOfInterest where
  Event : String
  Start : ℤ
  End : ℤ
  geometry : Point
deriving DecidableEq

/-- The row returned by `get_distance_to_location_of_interest`: the original
location-of-interest columns concatenated with the matching-history columns.
Missing values (`NaT` time, `NaN` distance and coordinates) are `none`. -/
structure MatchResult where
  loi : LocationOfInterest
  location_history_record_time : Option ℤ
  distance_to_location_km : Option ℚ
  personal_lat : Option ℚ
  personal_lon : Option ℚ
  comment : String
deriving DecidableEq

/-- Python `round` to the nearest integer: round half to even. -/
def roundHalfEven (q : ℚ) : ℤ :=
  let f := ⌊q⌋
  if q - f < 1 / 2 then f
  else if 1 / 2 < q - f then f + 1
  else if f % 2 = 0 then f else f + 1

/-- Python `round(q, 2)`. -/
def roundTo2 (q : ℚ) : ℚ :=
  (roundHalfEven (q * 100) : ℚ) / 100

/-- `point_to_point_distance(p1, p2)`: the geodesic distance between the two
lat/lon points in km, rounded to 2 decimal places.  The geodesic itself is
the external call `geopy.distance.distance((p1.y, p1.x), (p2.y, p2.x)).km`,
passed in as `dist`. -/
def point_to_point_distance (dist : Point → Point → ℚ) (p1 p2 : Point) : ℚ :=
  roundTo2 (dist p1 p2)

/-- The boolean-mask selection
`(location_history.time > start) & (location_history.time < stop)`
followed by `.loc[mask, :]`: the rows whose time lies strictly inside the
window. -/
def samples_in_window (history : List PositionSample) (start stop : ℤ) :
    List PositionSample :=
  history.filter (fun s => decide (start < s.time) && decide (s.time < stop))

/-- Minimum of a list of rationals (0 on the empty list, which the code
never queries). -/
def listMin : List ℚ → ℚ
  | [] => 0
  | [a] => a
  | a :: b :: t => min a (listMin (b :: t))

/-- `np.argmin`: index of the first occurrence of the minimum. -/
def idxOfMin : List ℚ → ℕ
  | [] => 0
  | [_] => 0
  | a :: b :: t => if a ≤ listMin (b :: t) then 0 else idxOfMin (b :: t) + 1

/-- `get_distance_to_location_of_interest(location_of_interest, location_history)`:
select the in-window rows; if none, return the unmatched row (missing time,
distance and personal coordinates, and the no-match comment); otherwise
compute the distance column, take the row at `np.argmin` of that column, and
report its time, distance and coordinates together with the count comment.
Like the source row, the result carries the original location-of-interest
columns (`pd.concat`). -/
def get_distance_to_location_of_interest (dist : Point → Point → ℚ)
    (location_of_interest : LocationOfInterest)
    (location_history : List PositionSample) : MatchResult :=
  let locations_in_window :=
    samples_in_window location_history location_of_interest.Start
      location_of_interest.End
  if locations_in_window.isEmpty then
    { loi := location_of_interest
      location_history_record_time := none
      distance_to_location_km := none
      personal_lat := none
      personal_lon := none
      comment := "No matching records found in location history" }
  else
    let distance_col := locations_in_window.map
      (fun location =>
        point_to_point_distance dist location.geometry
          location_of_interest.geometry)
    let i := idxOfMin distance_col
    let matching := locations_in_window.getD i ⟨0, 0, 0⟩
    { loi := location_of_interest
      location_history_record_time := some matching.time
      distance_to_location_km := some (distance_col.getD i 0)
      personal_lat := some matching.lat
      personal_lon := some matching.lon
      comment := toString locations_in_window.length ++
        " matching records found in location history" }

/-- The batch step of `main`:
`locations_of_interest.apply(lambda l: get_distance_to_location_of_interest(l, location_history), axis=1)`. -/
def buildReport (dist : Point → Point → ℚ)
    (locations_of_interest : List LocationOfInterest)
    (location_history : List PositionSample) : List MatchResult :=
  locations_of_interest.map
    (fun l => get_distance_to_location_of_interest dist l location_history)

/-- The hardcoded cutoff in `read_location_history_file`. -/
def threshold_timestamp_ms : ℤ := 1624241116000

/-- A raw record of the exported location history (`locations.item`). -/
structure RawLocation where
  timestampMs : ℤ
  latitudeE7 : ℤ
  longitudeE7 : ℤ
deriving DecidableEq

/-- The filtering loop of `read_location_history_file`: skip any item with
`int(item.timestampMs) < cutoff`, keep the rest in order. -/
def threshold_filter (items : List RawLocation) (cutoff : ℤ) :
    List RawLocation :=
  items.filter (fun item => !decide (item.timestampMs < cutoff))

/-- The ordering used by `sort_values(by="distance_to_location_km")`:
ascending distance, with missing distances (NaN) placed last
(pandas default `na_position="last"`). -/
def distLE (a b : MatchResult) : Prop :=
  match a.distance_to_location_km, b.distance_to_location_km with
  | _, none => True
  | none, some _ => False
  | some da, some db => da ≤ db

instance : DecidableRel distLE := fun a b => by
  unfold distLE
  cases a.distance_to_location_km <;> cases b.distance_to_location_km <;>
    simp <;> infer_instance

instance : IsTotal MatchResult distLE where
  total a b := by
    unfold distLE
    cases a.distance_to_location_km <;> cases b.distance_to_location_km <;>
      simp [le_total]

instance : IsTrans MatchResult distLE where
  trans a b c h1 h2 := by
    unfold distLE at h1 h2 ⊢
    revert h1 h2
    cases a.distance_to_location_km <;> cases b.distance_to_location_km <;>
      cases c.distance_to_location_km
    all_goals simp
    all_goals exact fun h1 h2 => le_trans h1 h2

/-- `locations_of_interest.sort_values(by="distance_to_location_km")` in
`main`: sort ascending by the distance column, missing distances last. -/
def sort_values_by_distance (rs : List MatchResult) : List MatchResult :=
  rs.insertionSort distLE

/-- `pandas.Series.argmin` (reached through `np.argmin` on the distance
Series in `print_processing_report`): position of the first occurrence of
the minimum, skipping missing values. -/
def idxOfMinOpt : List (Option ℚ) → ℕ
  | [] => 0
  | none :: t => idxOfMinOpt t + 1
  | some a :: t =>
    if (t.filterMap id).all (fun b => decide (a ≤ b)) then 0
    else idxOfMinOpt t + 1

/-- What `print_processing_report` prints: the matched and unmatched counts
and, when at least one row matched, the closest row. -/
structure ProcessingReport where
  num_matched : ℕ
  num_unmatched : ℕ
  closest : Option MatchResult
deriving DecidableEq

/-- `print_processing_report(locations_of_interest, location_history)`:
count rows with non-missing / missing distance; when some row matched,
report `locations_of_interest.loc[np.argmin(distance column)]` as the
closest location of interest. -/
def print_processing_report (rs : List MatchResult) : ProcessingReport :=
  let num_matched :=
    (rs.filter (fun r => r.distance_to_location_km.isSome)).length
  let num_unmatched :=
    (rs.filter (fun r => r.distance_to_location_km.isNone)).length
  let closest :=
    if 0 < num_matched then
      some (rs.getD (idxOfMinOpt (rs.map (fun r => r.distance_to_location_km)))
        ⟨⟨"", 0, 0, ⟨0, 0⟩⟩, none, none, none, none, ""⟩)
    else none
  ⟨num_matched, num_unmatched, closest⟩

/-- State-threaded form of `get_distance_to_location_of_interest`: the pandas
`.loc[mask, :]` selection copies the selected rows, and the distance column
is written onto that copy (`locations_in_window[...] = ...`), so the history
dataframe the caller passed is returned unchanged alongside the result. -/
def get_distance_st (dist : Point → Point → ℚ)
    (location_of_interest : LocationOfInterest)
    (location_history : List PositionSample) :
    MatchResult × List PositionSample :=
  let locations_in_window :=
    samples_in_window location_history location_of_interest.Start
      location_of_interest.End
  if locations_in_window.isEmpty then
    ({ loi := location_of_interest
       location_history_record_time := none
       distance_to_location_km := none
       personal_lat := none
       personal_lon := none
       comment := "No matching records found in location history" },
     location_history)
  else
    let annotated := locations_in_window.map
      (fun location =>
        (location,
         point_to_point_distance dist location.geometry
           location_of_interest.geometry))
    let i := idxOfMin (annotated.map (fun p => p.2))
    let matching := annotated.getD i (⟨0, 0, 0⟩, 0)
    ({ loi := location_of_interest
       location_history_record_time := some matching.1.time
       distance_to_location_km := some matching.2
       personal_lat := some matching.1.lat
       personal_lon := some matching.1.lon
       comment := toString locations_in_window.length ++
         " matching records found in location history" },
     location_history)

/-- State-threaded form of the batch step of `main`: each row of
`locations_of_interest` is processed in turn against the history state. -/
def buildReport_st (dist : Point → Point → ℚ)
    (locations_of_interest : List LocationOfInterest)
    (location_history : List PositionSample) :
    List MatchResult × List PositionSample :=
  match locations_of_interest with
  | [] => ([], location_history)
  | l :: rest =>
    let (r, history1) := get_distance_st dist l location_history
    let (rs, history2) := buildReport_st dist rest history1
    (r :: rs, history2)

/-! ### Helper lemmas about lists, minima and argmin -/

theorem getD_map_lt {α β : Type} (f : α → β) (l : List α) (i : ℕ)
    (hi : i < l.length) (d : α) (e : β) :
    (l.map f).getD i e = f (l.getD i d) := by
  induction l generalizing i with
  | nil => simp at hi
  | cons a t ih =>
    cases i with
    | zero => simp
    | succ j =>
      simp only [List.map_cons, List.getD_cons_succ]
      exact ih j (by simpa using hi)

theorem getD_mem_lt {α : Type} (l : List α) (i : ℕ) (hi : i < l.length)
    (d : α) : l.getD i d ∈ l := by
  induction l generalizing i with
  | nil => simp at hi
  | cons a t ih =>
    cases i with
    | zero => simp
    | succ j =>
      simp only [List.getD_cons_succ]
      exact List.mem_cons_of_mem a (ih j (by simpa using hi))

theorem listMin_le {l : List ℚ} {x : ℚ} (hx : x ∈ l) : listMin l ≤ x := by
  induction l with
  | nil => cases hx
  | cons a t ih =>
    cases t with
    | nil =>
      rcases List.mem_singleton.mp hx with rfl
      simp [listMin]
    | cons b t2 =>
      simp only [listMin]
      rcases List.mem_cons.mp hx with rfl | h
      · exact min_le_left _ _
      · exact le_trans (min_le_right _ _) (ih h)

theorem idxOfMin_lt_length {l : List ℚ} (h : l ≠ []) :
    idxOfMin l < l.length := by
  induction l with
  | nil => exact absurd rfl h
  | cons a t ih =>
    cases t with
    | nil => simp [idxOfMin]
    | cons b t2 =>
      simp only [idxOfMin]
      split
      · simp
      · simpa using Nat.succ_lt_succ (ih (by simp))

theorem getD_idxOfMin {l : List ℚ} (h : l ≠ []) :
    l.getD (idxOfMin l) 0 = listMin l := by
  induction l with
  | nil => exact absurd rfl h
  | cons a t ih =>
    cases t with
    | nil => simp [idxOfMin, listMin]
    | cons b t2 =>
      simp only [idxOfMin, listMin]
      split
      next h1 =>
        simp only [List.getD_cons_zero]
        exact (min_eq_left h1).symm
      next h1 =>
        push_neg at h1
        simp only [List.getD_cons_succ]
        rw [ih (by simp)]
        exact (min_eq_right h1.le).symm

theorem idxOfMinOpt_spec (l : List (Option ℚ)) (h : ∃ x ∈ l, x.isSome) :
    idxOfMinOpt l < l.length ∧
    ∃ m, l.getD (idxOfMinOpt l) none = some m ∧
      ∀ x ∈ l, ∀ y : ℚ, x = some y → m ≤ y := by
  induction l with
  | nil => simp at h
  | cons a t ih =>
    cases a with
    | none =>
      have ht : ∃ x ∈ t, x.isSome := by
        rcases h with ⟨x, hx, hs⟩
        rcases List.mem_cons.mp hx with rfl | hx2
        · simp at hs
        · exact ⟨x, hx2, hs⟩
      obtain ⟨hlt, m, hm, hmin⟩ := ih ht
      refine ⟨by simpa [idxOfMinOpt] using Nat.succ_lt_succ hlt, m, ?_, ?_⟩
      · simpa [idxOfMinOpt, List.getD_cons_succ] using hm
      · intro x hx y hxy
        rcases List.mem_cons.mp hx with rfl | hx2
        · simp at hxy
        · exact hmin x hx2 y hxy
    | some a =>
      simp only [idxOfMinOpt]
      split
      next hall =>
        refine ⟨by simp, a, by simp, ?_⟩
        intro x hx y hxy
        rcases List.mem_cons.mp hx with rfl | hx2
        · exact le_of_eq (Option.some.inj hxy)
        · subst hxy
          have hy : y ∈ t.filterMap id := List.mem_filterMap.mpr ⟨some y, hx2, rfl⟩
          simpa using List.all_eq_true.mp hall _ hy
      next hall =>
        have hex : ∃ b ∈ t.filterMap id, ¬ a ≤ b := by
          by_contra hno
          push_neg at hno
          exact hall (List.all_eq_true.mpr (fun b hb => by simpa using hno b hb))
        rcases hex with ⟨b, hbmem, hab⟩
        rcases List.mem_filterMap.mp hbmem with ⟨x, hxt, hxb⟩
        have hxsome : x = some b := by simpa using hxb
        have ht : ∃ x ∈ t, x.isSome := ⟨x, hxt, by simp [hxsome]⟩
        obtain ⟨hlt, m, hm, hmin⟩ := ih ht
        have hma : m ≤ a :=
          le_of_lt (lt_of_le_of_lt (hmin x hxt b hxsome) (not_le.mp hab))
        refine ⟨Nat.succ_lt_succ hlt, m, ?_, ?_⟩
        · simpa [List.getD_cons_succ] using hm
        · intro x2 hx2 y hxy
          rcases List.mem_cons.mp hx2 with rfl | hx3
          · exact (Option.some.inj hxy) ▸ hma
          · exact hmin x2 hx3 y hxy

/-! ### Decimal representations of naturals consist of digit characters -/

theorem toDigitsCore_chars (b : ℕ) (hb : 0 < b) :
    ∀ (fuel n : ℕ) (acc : List Char) (c : Char),
      c ∈ Nat.toDigitsCore b fuel n acc →
      c ∈ acc ∨ ∃ m : ℕ, m < b ∧ c = Nat.digitChar m := by
  intro fuel
  induction fuel with
  | zero => intro n acc c hc; exact Or.inl (by simpa [Nat.toDigitsCore] using hc)
  | succ fuel ih =>
    intro n acc c hc
    simp only [Nat.toDigitsCore] at hc
    by_cases hz : n / b = 0
    · rw [if_pos hz] at hc
      rcases List.mem_cons.mp hc with rfl | hc2
      · exact Or.inr ⟨n % b, Nat.mod_lt n hb, rfl⟩
      · exact Or.inl hc2
    · rw [if_neg hz] at hc
      rcases ih (n / b) (Nat.digitChar (n % b) :: acc) c hc with hin | hdig
      · rcases List.mem_cons.mp hin with rfl | hc2
        · exact Or.inr ⟨n % b, Nat.mod_lt n hb, rfl⟩
        · exact Or.inl hc2
      · exact Or.inr hdig

theorem natToString_ne_No (k : ℕ) : toString k ≠ "No" := by
  intro he
  have h1 : Nat.toDigits 10 k = ['N', 'o'] := by
    have h2 : (Nat.toDigits 10 k).asString = "No" := he
    exact congrArg String.data h2
  have h2 : 'N' ∈ Nat.toDigits 10 k := by rw [h1]; simp
  rw [Nat.toDigits] at h2
  rcases toDigitsCore_chars 10 (by norm_num) (k + 1) k [] 'N' h2 with h | ⟨m, hm, hc⟩
  · simp at h
  · have hdig : ∀ m < 10, Nat.digitChar m ≠ 'N' := by decide
    exact hdig m hm hc.symm

theorem countComment_ne_noMatch (k : ℕ) :
    toString k ++ " matching records found in location history" ≠
      "No matching records found in location history" := by
  intro he
  have hsplit : "No matching records found in location history" =
      "No" ++ " matching records found in location history" := rfl
  rw [hsplit] at he
  have hdata := congrArg String.data he
  rw [String.data_append, String.data_append] at hdata
  exact natToString_ne_No k (String.ext (List.append_cancel_right hdata))

/-! ### Facts about rounding -/

theorem roundTo2_zero : roundTo2 0 = 0 := by
  have h : roundHalfEven 0 = 0 := by norm_num [roundHalfEven]
  norm_num [roundTo2, h]

theorem roundTo2_nonneg {q : ℚ} (hq : 0 ≤ q) : 0 ≤ roundTo2 q := by
  have hf : (0 : ℤ) ≤ ⌊q * 100⌋ := Int.floor_nonneg.mpr (by positivity)
  have hr : (0 : ℤ) ≤ roundHalfEven (q * 100) := by
    unfold roundHalfEven
    dsimp only
    split_ifs <;> omega
  unfold roundTo2
  exact div_nonneg (by exact_mod_cast hr) (by norm_num)

/-! ### The claims -/

/-- C2: for every history and every window, the window query used by the
matcher returns exactly the samples with start < timestamp < stop; a sample
whose timestamp equals either boundary is excluded. -/
theorem samples_in_window_characterization (history : List PositionSample)
    (start stop : ℤ) (s : PositionSample) :
    (s ∈ samples_in_window history start stop ↔
      s ∈ history ∧ start < s.time ∧ s.time < stop) ∧
    ((s.time = start ∨ s.time = stop) →
      s ∉ samples_in_window history start stop) := by
  have hmem : s ∈ samples_in_window history start stop ↔
      s ∈ history ∧ start < s.time ∧ s.time < stop := by
    simp [samples_in_window, List.mem_filter]
  refine ⟨hmem, ?_⟩
  rintro (h | h) hin
  · rcases hmem.mp hin with ⟨-, h1, -⟩; omega
  · rcases hmem.mp hin with ⟨-, -, h2⟩; omega

/-- Witness for C2 at a concrete boundary sample. -/
theorem samples_in_window_characterization_witness :
    (⟨5, 0, 0⟩ : PositionSample) ∉ samples_in_window [⟨5, 0, 0⟩] 5 10 :=
  (samples_in_window_characterization [⟨5, 0, 0⟩] 5 10 ⟨5, 0, 0⟩).2 (Or.inl rfl)

/-- C6: the threshold filter retains exactly the raw records with
timestamp at least the cutoff; a record whose timestamp equals the cutoff
is kept. -/
theorem threshold_filter_characterization (items : List RawLocation)
    (cutoff : ℤ) (item : RawLocation) :
    (item ∈ threshold_filter items cutoff ↔
      item ∈ items ∧ cutoff ≤ item.timestampMs) ∧
    (item.timestampMs = cutoff → item ∈ items →
      item ∈ threshold_filter items cutoff) := by
  have hmem : item ∈ threshold_filter items cutoff ↔
      item ∈ items ∧ cutoff ≤ item.timestampMs := by
    simp [threshold_filter, List.mem_filter, not_lt]
  exact ⟨hmem, fun he hin => hmem.mpr ⟨hin, le_of_eq he.symm⟩⟩

/-- Witness for C6 at the hardcoded cutoff itself. -/
theorem threshold_filter_characterization_witness :
    (⟨threshold_timestamp_ms, 0, 0⟩ : RawLocation) ∈
      threshold_filter [⟨threshold_timestamp_ms, 0, 0⟩] threshold_timestamp_ms :=
  (threshold_filter_characterization [⟨threshold_timestamp_ms, 0, 0⟩]
      threshold_timestamp_ms ⟨threshold_timestamp_ms, 0, 0⟩).2 rfl
    (List.mem_singleton.mpr rfl)

/-- C7: the rounded great-circle distance is zero on identical points and
symmetric, given that the underlying external geodesic
(`geopy.distance.distance(..).km`) is zero on identical points and
symmetric. -/
theorem point_to_point_distance_zero_symm (dist : Point → Point → ℚ)
    (h0 : ∀ p, dist p p = 0) (hsymm : ∀ p1 p2, dist p1 p2 = dist p2 p1) :
    (∀ p, point_to_point_distance dist p p = 0) ∧
    (∀ p1 p2, point_to_point_distance dist p1 p2 =
      point_to_point_distance dist p2 p1) := by
  constructor
  · intro p; rw [point_to_point_distance, h0, roundTo2_zero]
  · intro p1 p2; rw [point_to_point_distance, point_to_point_distance, hsymm]

/-- An everywhere-zero stand-in for the external geodesic, used by witnesses. -/
def dist0 : Point → Point → ℚ := fun _ _ => 0

/-- Witness for C7 with a concrete geodesic function. -/
theorem point_to_point_distance_zero_symm_witness :
    (∀ p, point_to_point_distance dist0 p p = 0) ∧
    (∀ p1 p2, point_to_point_distance dist0 p1 p2 =
      point_to_point_distance dist0 p2 p1) :=
  point_to_point_distance_zero_symm dist0 (fun _ => rfl) (fun _ _ => rfl)

/-- Concrete fixtures used by the witnesses: the scenario of one history
sample at time 100 and windows that do / do not contain it. -/
def loiA : LocationOfInterest := ⟨"Event A", 50, 150, ⟨0, 1 / 100⟩⟩

def loiB : LocationOfInterest := ⟨"Event B", 200, 300, ⟨0, 1 / 100⟩⟩

def histA : List PositionSample := [⟨100, 0, 0⟩]

/-- C3: when no sample falls strictly inside the window, the matcher
returns the unmatched row (no time, distance or personal coordinates, and
the no-match comment); the batch step still processes the remaining
locations of interest. -/
theorem no_match_result (dist : Point → Point → ℚ)
    (loi : LocationOfInterest) (history : List PositionSample)
    (h : samples_in_window history loi.Start loi.End = []) :
    (get_distance_to_location_of_interest dist loi history).location_history_record_time = none ∧
    (get_distance_to_location_of_interest dist loi history).distance_to_location_km = none ∧
    (get_distance_to_location_of_interest dist loi history).personal_lat = none ∧
    (get_distance_to_location_of_interest dist loi history).personal_lon = none ∧
    (get_distance_to_location_of_interest dist loi history).comment =
      "No matching records found in location history" ∧
    ∀ rest, buildReport dist (loi :: rest) history =
      get_distance_to_location_of_interest dist loi history ::
        buildReport dist rest history := by
  refine ⟨?_, ?_, ?_, ?_, ?_, fun rest => by simp [buildReport]⟩ <;>
    simp [get_distance_to_location_of_interest, h]

/-- Witness for C3: the window [200, 300] contains no sample of `histA`. -/
theorem no_match_result_witness :
    (get_distance_to_location_of_interest dist0 loiB histA).comment =
      "No matching records found in location history" ∧
    buildReport dist0 (loiB :: [loiA]) histA =
      get_distance_to_location_of_interest dist0 loiB histA ::
        buildReport dist0 [loiA] histA :=
  ⟨(no_match_result dist0 loiB histA (by decide)).2.2.2.2.1,
   (no_match_result dist0 loiB histA (by decide)).2.2.2.2.2 [loiA]⟩

/-- C10: the matched count plus the unmatched count equals the total number
of rows in the report. -/
theorem matched_unmatched_counts (rs : List MatchResult) :
    (print_processing_report rs).num_matched +
      (print_processing_report rs).num_unmatched = rs.length := by
  show (rs.filter (fun r => r.distance_to_location_km.isSome)).length +
      (rs.filter (fun r => r.distance_to_location_km.isNone)).length = rs.length
  induction rs with
  | nil => rfl
  | cons r t ih =>
    cases hr : r.distance_to_location_km with
    | none => simp only [List.filter_cons, hr]; simp; omega
    | some d => simp only [List.filter_cons, hr]; simp; omega

/-- C1: when at least one sample lies strictly inside the window, the
matcher reports the minimum distance over the in-window samples, the
time and coordinates of a sample attaining it, and a comment counting the
in-window samples. -/
theorem min_distance_result (dist : Point → Point → ℚ)
    (loi : LocationOfInterest) (history : List PositionSample)
    (h : samples_in_window history loi.Start loi.End ≠ []) :
    ∃ d : ℚ,
      (get_distance_to_location_of_interest dist loi history).distance_to_location_km = some d ∧
      (∀ s ∈ samples_in_window history loi.Start loi.End,
        d ≤ point_to_point_distance dist s.geometry loi.geometry) ∧
      (∃ s ∈ samples_in_window history loi.Start loi.End,
        point_to_point_distance dist s.geometry loi.geometry = d ∧
        (get_distance_to_location_of_interest dist loi history).location_history_record_time = some s.time ∧
        (get_distance_to_location_of_interest dist loi history).personal_lat = some s.lat ∧
        (get_distance_to_location_of_interest dist loi history).personal_lon = some s.lon) ∧
      (get_distance_to_location_of_interest dist loi history).comment =
        toString (samples_in_window history loi.Start loi.End).length ++
          " matching records found in location history" := by
  set wins := samples_in_window history loi.Start loi.End with hwins
  set f := fun s : PositionSample =>
    point_to_point_distance dist s.geometry loi.geometry with hf
  have hne : wins.isEmpty = false := List.isEmpty_eq_false.mpr h
  have hcolne : wins.map f ≠ [] := by
    simpa [List.map_eq_nil_iff] using h
  have hi : idxOfMin (wins.map f) < wins.length := by
    simpa [List.length_map] using idxOfMin_lt_length hcolne
  refine ⟨(wins.map f).getD (idxOfMin (wins.map f)) 0, ?_, ?_, ?_, ?_⟩
  · simp [get_distance_to_location_of_interest, hne, ← hwins, ← hf]
  · intro s hs
    rw [getD_idxOfMin hcolne]
    exact listMin_le (List.mem_map_of_mem f hs)
  · refine ⟨wins.getD (idxOfMin (wins.map f)) ⟨0, 0, 0⟩,
      getD_mem_lt wins _ hi _, ?_, ?_, ?_, ?_⟩
    · exact (getD_map_lt f wins _ hi ⟨0, 0, 0⟩ 0).symm
    · simp [get_distance_to_location_of_interest, hne, ← hwins, ← hf]
    · simp [get_distance_to_location_of_interest, hne, ← hwins, ← hf]
    · simp [get_distance_to_location_of_interest, hne, ← hwins, ← hf]
  · simp [get_distance_to_location_of_interest, hne, ← hwins, ← hf]

/-- Witness for C1: the window [50, 150] contains the sample of `histA`. -/
theorem min_distance_result_witness :
    ∃ d : ℚ,
      (get_distance_to_location_of_interest dist0 loiA histA).distance_to_location_km = some d ∧
      (∀ s ∈ samples_in_window histA loiA.Start loiA.End,
        d ≤ point_to_point_distance dist0 s.geometry loiA.geometry) ∧
      (∃ s ∈ samples_in_window histA loiA.Start loiA.End,
        point_to_point_distance dist0 s.geometry loiA.geometry = d ∧
        (get_distance_to_location_of_interest dist0 loiA histA).location_history_record_time = some s.time ∧
        (get_distance_to_location_of_interest dist0 loiA histA).personal_lat = some s.lat ∧
        (get_distance_to_location_of_interest dist0 loiA histA).personal_lon = some s.lon) ∧
      (get_distance_to_location_of_interest dist0 loiA histA).comment =
        toString (samples_in_window histA loiA.Start loiA.End).length ++
          " matching records found in location history" :=
  min_distance_result dist0 loiA histA (by decide)

/-- C4: the final report written by `main` is the batch output sorted
ascending by distance, with every unmatched row (missing distance) after
every matched row, whatever the input order; the sorted sequence is a
permutation of the batch output. -/
theorem report_sorted (dist : Point → Point → ℚ)
    (lois : List LocationOfInterest) (history : List PositionSample) :
    (sort_values_by_distance (buildReport dist lois history)).Perm
      (buildReport dist lois history) ∧
    List.Pairwise (fun a b : MatchResult =>
        (a.distance_to_location_km = none → b.distance_to_location_km = none) ∧
        ∀ da db : ℚ, a.distance_to_location_km = some da →
          b.distance_to_location_km = some db → da ≤ db)
      (sort_values_by_distance (buildReport dist lois history)) := by
  refine ⟨List.perm_insertionSort distLE _, ?_⟩
  have hs := List.sorted_insertionSort distLE (buildReport dist lois history)
  refine List.Pairwise.imp ?_ hs
  intro a b hab
  unfold distLE at hab
  constructor
  · intro ha
    cases hb : b.distance_to_location_km with
    | none => rfl
    | some db => rw [ha, hb] at hab; exact absurd hab not_false
  · intro da db hda hdb
    rw [hda, hdb] at hab
    exact hab

/-- C5: the closest entry reported by `print_processing_report` attains the
minimum distance over the matched entries only; with zero matched entries
the closest-match summary is skipped. -/
theorem closest_match_spec (rs : List MatchResult) :
    ((print_processing_report rs).num_matched = 0 →
      (print_processing_report rs).closest = none) ∧
    (0 < (print_processing_report rs).num_matched →
      ∃ r, (print_processing_report rs).closest = some r ∧ r ∈ rs ∧
        ∃ d : ℚ, r.distance_to_location_km = some d ∧
          ∀ r2 ∈ rs, ∀ d2 : ℚ,
            r2.distance_to_location_km = some d2 → d ≤ d2) := by
  constructor
  · intro h0
    have h0b : (rs.filter (fun r => r.distance_to_location_km.isSome)).length = 0 := h0
    show (if 0 < (rs.filter (fun r => r.distance_to_location_km.isSome)).length
        then _ else none) = none
    rw [if_neg]
    omega
  · intro hpos
    have hpos2 : 0 <
        (rs.filter (fun r => r.distance_to_location_km.isSome)).length := hpos
    have hne : rs.filter (fun r => r.distance_to_location_km.isSome) ≠ [] :=
      List.length_pos.mp hpos2
    obtain ⟨r0, hr0⟩ := List.exists_mem_of_ne_nil _ hne
    rcases List.mem_filter.mp hr0 with ⟨hr0rs, hr0s⟩
    have hex : ∃ x ∈ rs.map (fun r => r.distance_to_location_km), x.isSome :=
      ⟨r0.distance_to_location_km, List.mem_map_of_mem _ hr0rs, hr0s⟩
    obtain ⟨hlt, m, hgd, hmin⟩ := idxOfMinOpt_spec _ hex
    have hlt2 : idxOfMinOpt (rs.map (fun r => r.distance_to_location_km)) <
        rs.length := by simpa [List.length_map] using hlt
    refine ⟨rs.getD (idxOfMinOpt (rs.map (fun r => r.distance_to_location_km)))
        ⟨⟨"", 0, 0, ⟨0, 0⟩⟩, none, none, none, none, ""⟩, ?_, ?_, m, ?_, ?_⟩
    · show (if 0 < (rs.filter (fun r => r.distance_to_location_km.isSome)).length
          then some _ else none) = some _
      rw [if_pos hpos2]
    · exact getD_mem_lt rs _ hlt2 _
    · rw [← getD_map_lt (fun r : MatchResult => r.distance_to_location_km)
        rs _ hlt2 ⟨⟨"", 0, 0, ⟨0, 0⟩⟩, none, none, none, none, ""⟩ none]
      exact hgd
    · intro r2 hr2 d2 hd2
      exact hmin r2.distance_to_location_km (List.mem_map_of_mem _ hr2) d2 hd2

/-- Fixture match results for the report witnesses: one unmatched row first,
then one matched row. -/
def resB : MatchResult :=
  ⟨loiB, none, none, none, none, "No matching records found in location history"⟩

def resA : MatchResult :=
  ⟨loiA, some 100, some 2, some 0, some 0, "1 matching records found in location history"⟩

/-- Witness for C5 on a concrete batch with an unmatched row before the
matched one. -/
theorem closest_match_spec_witness :
    0 < (print_processing_report [resB, resA]).num_matched ∧
    ∃ r, (print_processing_report [resB, resA]).closest = some r ∧
      r ∈ [resB, resA] ∧
      ∃ d : ℚ, r.distance_to_location_km = some d ∧
        ∀ r2 ∈ [resB, resA], ∀ d2 : ℚ,
          r2.distance_to_location_km = some d2 → d ≤ d2 :=
  ⟨by decide, (closest_match_spec [resB, resA]).2 (by decide)⟩

/-- Membership in the window selection, stated as a plain lemma shared by
several proofs. -/
theorem mem_samples_in_window {history : List PositionSample} {start stop : ℤ}
    {s : PositionSample} :
    s ∈ samples_in_window history start stop ↔
      s ∈ history ∧ start < s.time ∧ s.time < stop := by
  simp [samples_in_window, List.mem_filter]

/-- The state-threaded matcher computes the same row as the plain matcher
and hands back the history it was given. -/
theorem get_distance_st_eq (dist : Point → Point → ℚ)
    (loi : LocationOfInterest) (history : List PositionSample) :
    get_distance_st dist loi history =
      (get_distance_to_location_of_interest dist loi history, history) := by
  unfold get_distance_st get_distance_to_location_of_interest
  by_cases h : (samples_in_window history loi.Start loi.End).isEmpty
  · simp [h]
  · have hne : samples_in_window history loi.Start loi.End ≠ [] := by
      simpa [List.isEmpty_iff] using h
    have hcolne : (samples_in_window history loi.Start loi.End).map
        (fun location =>
          point_to_point_distance dist location.geometry loi.geometry) ≠ [] := by
      simpa [List.map_eq_nil_iff] using hne
    have hi : idxOfMin ((samples_in_window history loi.Start loi.End).map
          (fun location =>
            point_to_point_distance dist location.geometry loi.geometry)) <
        (samples_in_window history loi.Start loi.End).length := by
      simpa [List.length_map] using idxOfMin_lt_length hcolne
    have hmapmap : List.map (fun p : PositionSample × ℚ => p.2)
          (List.map (fun location =>
              (location,
               point_to_point_distance dist location.geometry loi.geometry))
            (samples_in_window history loi.Start loi.End))
        = List.map (fun location =>
            point_to_point_distance dist location.geometry loi.geometry)
          (samples_in_window history loi.Start loi.End) := by
      rw [List.map_map]; rfl
    simp [h, hmapmap, List.getElem?_eq_getElem hi]

/-- The state-threaded batch hands the history back unchanged. -/
theorem buildReport_st_snd (dist : Point → Point → ℚ)
    (lois : List LocationOfInterest) (history : List PositionSample) :
    (buildReport_st dist lois history).2 = history := by
  induction lois with
  | nil => rfl
  | cons l t ih => simp [buildReport_st, get_distance_st_eq, ih]

/-- The state-threaded batch computes the same rows as the per-row map. -/
theorem buildReport_st_fst (dist : Point → Point → ℚ)
    (lois : List LocationOfInterest) (history : List PositionSample) :
    (buildReport_st dist lois history).1 = buildReport dist lois history := by
  induction lois with
  | nil => rfl
  | cons l t ih => simp [buildReport_st, buildReport, get_distance_st_eq, ih]

/-- C8: each row's result depends only on that row and the history: the
batch leaves the history unchanged, equals the independent per-row map,
computes row i from row i alone, and is permutation-compatible with any
reordering of the input rows. -/
theorem matcher_independent (dist : Point → Point → ℚ)
    (lois lois2 : List LocationOfInterest) (history : List PositionSample)
    (hperm : lois.Perm lois2) :
    (buildReport_st dist lois history).2 = history ∧
    (buildReport_st dist lois history).1 = buildReport dist lois history ∧
    (∀ i : ℕ, (buildReport dist lois history)[i]? =
      (lois[i]?).map
        (fun l => get_distance_to_location_of_interest dist l history)) ∧
    (buildReport dist lois history).Perm (buildReport dist lois2 history) := by
  refine ⟨buildReport_st_snd dist lois history,
    buildReport_st_fst dist lois history, ?_, ?_⟩
  · intro i
    simp [buildReport, List.getElem?_map]
  · simpa [buildReport] using
      hperm.map (fun l => get_distance_to_location_of_interest dist l history)

/-- Witness for C8 on a concrete pair of reordered batches. -/
theorem matcher_independent_witness :
    (buildReport_st dist0 [loiA, loiB] histA).2 = histA ∧
    (buildReport dist0 [loiA, loiB] histA).Perm
      (buildReport dist0 [loiB, loiA] histA) :=
  ⟨(matcher_independent dist0 [loiA, loiB] [loiB, loiA] histA
      (List.Perm.swap loiB loiA [])).1,
   (matcher_independent dist0 [loiA, loiB] [loiB, loiA] histA
      (List.Perm.swap loiB loiA [])).2.2.2⟩

/-- C9: a result is matched exactly when its comment is not the no-match
message; a matched result's timestamp lies strictly inside the window, its
distance is non-negative (given the external geodesic is non-negative), and
its comment counts at least one record. -/
theorem matched_result_invariant (dist : Point → Point → ℚ)
    (loi : LocationOfInterest) (history : List PositionSample)
    (hd : ∀ p1 p2, 0 ≤ dist p1 p2) :
    ((get_distance_to_location_of_interest dist loi history).distance_to_location_km.isSome ↔
      (get_distance_to_location_of_interest dist loi history).comment ≠
        "No matching records found in location history") ∧
    ((get_distance_to_location_of_interest dist loi history).distance_to_location_km.isSome →
      (∃ t : ℤ,
        (get_distance_to_location_of_interest dist loi history).location_history_record_time = some t ∧
        loi.Start < t ∧ t < loi.End) ∧
      (∃ d : ℚ,
        (get_distance_to_location_of_interest dist loi history).distance_to_location_km = some d ∧
        0 ≤ d) ∧
      (∃ k : ℕ, 1 ≤ k ∧
        (get_distance_to_location_of_interest dist loi history).comment =
          toString k ++ " matching records found in location history")) := by
  by_cases h : (samples_in_window history loi.Start loi.End).isEmpty
  · simp [get_distance_to_location_of_interest, h]
  · set wins := samples_in_window history loi.Start loi.End with hwins
    set f := fun location : PositionSample =>
      point_to_point_distance dist location.geometry loi.geometry with hfdef
    have hne : wins ≠ [] := by simpa [List.isEmpty_iff] using h
    have hcolne : wins.map f ≠ [] := by
      simpa [List.map_eq_nil_iff] using hne
    have hi : idxOfMin (wins.map f) < wins.length := by
      simpa [List.length_map] using idxOfMin_lt_length hcolne
    have hmem : wins.getD (idxOfMin (wins.map f)) ⟨0, 0, 0⟩ ∈ wins :=
      getD_mem_lt wins _ hi ⟨0, 0, 0⟩
    have hbounds := (mem_samples_in_window.mp (hwins ▸ hmem)).2
    have hgetDdist : (wins.map f).getD (idxOfMin (wins.map f)) 0
          = f (wins.getD (idxOfMin (wins.map f)) ⟨0, 0, 0⟩) :=
      getD_map_lt f wins _ hi ⟨0, 0, 0⟩ 0
    constructor
    · constructor
      · intro _
        simp only [get_distance_to_location_of_interest, ← hwins, ← hfdef]
        simp [h]
        exact countComment_ne_noMatch wins.length
      · intro _
        simp [get_distance_to_location_of_interest, ← hwins, h]
    · intro _
      refine ⟨⟨(wins.getD (idxOfMin (wins.map f)) ⟨0, 0, 0⟩).time, ?_,
          hbounds.1, hbounds.2⟩,
        ⟨(wins.map f).getD (idxOfMin (wins.map f)) 0, ?_, ?_⟩,
        ⟨wins.length, ?_, ?_⟩⟩
      · simp [get_distance_to_location_of_interest, ← hwins, ← hfdef, h]
      · simp [get_distance_to_location_of_interest, ← hwins, ← hfdef, h]
      · rw [hgetDdist, hfdef]
        exact roundTo2_nonneg (hd _ _)
      · have := List.length_pos.mpr hne
        omega
      · simp [get_distance_to_location_of_interest, ← hwins, ← hfdef, h]

/-- Witness for C9 at a concrete matched location of interest. -/
theorem matched_result_invariant_witness :
    ((get_distance_to_location_of_interest dist0 loiA histA).distance_to_location_km.isSome ↔
      (get_distance_to_location_of_interest dist0 loiA histA).comment ≠
        "No matching records found in location history") ∧
    ((get_distance_to_location_of_interest dist0 loiA histA).distance_to_location_km.isSome →
      (∃ t : ℤ,
        (get_distance_to_location_of_interest dist0 loiA histA).location_history_record_time = some t ∧
        loiA.Start < t ∧ t < loiA.End) ∧
      (∃ d : ℚ,
        (get_distance_to_location_of_interest dist0 loiA histA).distance_to_location_km = some d ∧
        0 ≤ d) ∧
      (∃ k : ℕ, 1 ≤ k ∧
        (get_distance_to_location_of_interest dist0 loiA histA).comment =
          toString k ++ " matching records found in location history")) :=
  matched_result_invariant dist0 loiA histA (fun _ _ => le_refl 0)
